import Mathlib

/-!
Verification of the consola log-dispatch engine and its rendering utilities.

The definitions below are a shallow embedding of the TypeScript sources:
`src/consola.ts` (dispatch engine, pause queue, throttle state machine),
`src/core.ts` (`isPlainObject`, `isLogObj`), the constants module
(`LogLevels`, `LogTypes`), `src/utils/box.ts` (box drawing) and
`src/utils/tree.ts` (tree drawing).  JavaScript numbers appearing as log
levels are modelled by integers extended with the two infinite sentinels;
JavaScript values reaching the engine are modelled by a small value type
that distinguishes plain key-value objects (the only shape the structural
log-record test accepts) from primitive values, and includes a marker for
values whose JSON serialization throws (cyclic structures).
-/

namespace NoteConsola

/-- JavaScript numbers used as log levels: integers plus the two infinite
sentinels `Number.NEGATIVE_INFINITY` / `Number.POSITIVE_INFINITY`. -/
inductive ENum where
  | negInf
  | fin (n : Int)
  | posInf
deriving DecidableEq, Repr

/-- The JavaScript `>` comparison on the modelled numbers
(`Infinity > Infinity` is `false`, likewise for `-Infinity`). -/
def ENum.gtb : ENum → ENum → Bool
  | .negInf, _ => false
  | .posInf, .posInf => false
  | .posInf, _ => true
  | .fin _, .posInf => false
  | .fin _, .negInf => true
  | .fin n, .fin m => decide (m < n)

/-- Model of `(defaults.level as number) || 0` in `_logFn`: an absent level yields `0`;
a present numeric level is returned unchanged (`0 || 0` is `0`, and the
infinite sentinels are truthy). -/
def levelOrZero : Option ENum → ENum
  | none => .fin 0
  | some l => l

/-- JavaScript primitive values that can sit in the fields of a plain
object reaching the dispatch engine. -/
inductive JPrim where
  | pundef
  | pstr (s : String)
  | pnum (n : Int)
deriving DecidableEq, Repr

/-- JavaScript truthiness of the modelled primitives: `undefined`, `""` and
`0` are falsy. -/
def JPrim.truthy : JPrim → Bool
  | .pundef => false
  | .pstr s => !s.isEmpty
  | .pnum n => decide (n ≠ 0)

/-- Reading a possibly absent object field: an absent field reads as
`undefined`. -/
def fieldVal : Option JPrim → JPrim
  | none => .pundef
  | some p => p

/-- The own properties of a plain key-value object that the engine's
structural log-record detection and record merging consult.  A field set to
`none` is absent; `some .pundef` is a present field holding `undefined`.
(Other fields such as `type` or `tag` are not modelled; no claim under
verification merges them.) -/
structure PObjFields where
  message : Option JPrim := none
  args : Option (List JPrim) := none
  stack : Option JPrim := none
deriving DecidableEq, Repr

/-- JavaScript values passed as positional log arguments: a primitive, a
plain key-value object, or a value whose `JSON.stringify` throws (a cyclic
structure). -/
inductive JVal where
  | prim (p : JPrim)
  | pobj (o : PObjFields)
  | cyclic
deriving DecidableEq, Repr

/-- Function `isPlainObject` from `core.ts`: the `Object.prototype.toString` test,
true exactly for plain key-value objects. -/
def isPlainObject : JVal → Bool
  | .pobj _ => true
  | _ => false

/-- Function `isLogObj` from `core.ts`: a plain object, with a truthy `message` or a
present `args` array (arrays are always truthy in JavaScript, even empty
ones), and with a falsy `stack`. -/
def isLogObj : JVal → Bool
  | .pobj o =>
    if !(fieldVal o.message).truthy && !o.args.isSome then false
    else if (fieldVal o.stack).truthy then false
    else true
  | _ => false

/-- Table `LogLevels` from the constants module: the threshold sentinels and the
conventional severities. -/
def LogLevels : List (String × ENum) :=
  [("silent", .negInf), ("fatal", .fin 0), ("error", .fin 0),
   ("warn", .fin 1), ("log", .fin 2), ("info", .fin 3), ("success", .fin 3),
   ("fail", .fin 3), ("ready", .fin 3), ("start", .fin 3), ("box", .fin 3),
   ("debug", .fin 4), ("trace", .fin 5), ("verbose", .posInf)]

/-- Table `LogTypes` from the constants module: each log kind's default level
(each entry of the source table sets only `level`; note the `silent` kind's
level is the finite `-1`, not the `-Infinity` sentinel). -/
def LogTypes : List (String × ENum) :=
  [("silent", .fin (-1)), ("fatal", .fin 0), ("error", .fin 0),
   ("warn", .fin 1), ("log", .fin 2), ("info", .fin 3), ("success", .fin 3),
   ("fail", .fin 3), ("ready", .fin 3), ("start", .fin 3), ("box", .fin 3),
   ("debug", .fin 4), ("trace", .fin 5), ("verbose", .posInf)]

/-- Level lookup in the configured kind table. -/
def LogTypesFn (t : String) : Option ENum := LogTypes.lookup t

/-- Minimal JSON string quoting as performed by `JSON.stringify`
(character-list based so that concrete traces evaluate). -/
def jsonStr (s : String) : String :=
  "\"" ++ String.mk (s.data.flatMap (fun c =>
    if c = '"' then ['\\', '"'] else if c = '\\' then ['\\', '\\'] else [c])) ++ "\""

/-- Serialization of a primitive in array position by `JSON.stringify`: `undefined` becomes
`null` inside arrays. -/
def serializePrimArr : JPrim → String
  | .pundef => "null"
  | .pstr s => jsonStr s
  | .pnum n => toString n

/-- Serialization of a plain object by `JSON.stringify`: present fields are emitted in
insertion order, except fields holding `undefined`, which are omitted. -/
def serializeObj (o : PObjFields) : String :=
  let fields : List String :=
    (match o.message with
      | some .pundef | none => []
      | some p => ["\"message\":" ++ serializePrimArr p]) ++
    (match o.args with
      | none => []
      | some l =>
        ["\"args\":[" ++ String.intercalate "," (l.map serializePrimArr) ++ "]"]) ++
    (match o.stack with
      | some .pundef | none => []
      | some p => ["\"stack\":" ++ serializePrimArr p])
  "\x7b" ++ String.intercalate "," fields ++ "\x7d"

/-- Serialization of one argument value; `none` models the exception
thrown on a cyclic structure. -/
def serializeVal : JVal → Option String
  | .prim p => some (serializePrimArr p)
  | .pobj o => some (serializeObj o)
  | .cyclic => none

/-- The fingerprint `JSON.stringify([logObj.type, logObj.tag, logObj.args])`, the duplicate
fingerprint; fails (throws) when any argument is unserializable. -/
def serializeLog (type tag : String) (args : List JVal) : Option String :=
  (args.mapM serializeVal).map (fun l =>
    "[" ++ jsonStr type ++ "," ++ jsonStr tag ++ ","
        ++ "[" ++ String.intercalate "," l ++ "]" ++ "]")

/-- Structure `InputLogObject`: the caller-supplied partial record (all fields
optional). -/
structure InputLogObject where
  level : Option ENum := none
  type : Option String := none
  tag : Option String := none
  message : Option JPrim := none
  additional : Option (Sum String (List String)) := none
deriving DecidableEq, Repr

/-- The normalized log record handed to reporters. -/
structure LogObject where
  date : Nat
  level : ENum
  type : String
  tag : String
  args : List JVal
deriving DecidableEq, Repr

/-- Function `_normalizeLogLevel`: `undefined` resolves to the default (itself
defaulting to 3), a number is returned unchanged, a known kind name
resolves to that kind's configured level, anything else to the default. -/
def _normalizeLogLevel (input : Option (Sum ENum String))
    (types : String → Option ENum) (defaultLevel : ENum := .fin 3) : ENum :=
  match input with
  | none => defaultLevel
  | some (.inl n) => n
  | some (.inr t) =>
    match types t with
    | some l => l
    | none => defaultLevel

/-- Model of `String.prototype.toLowerCase` (character-list based so that
concrete traces evaluate). -/
def sToLower (s : String) : String := String.mk (s.data.map Char.toLower)

/-- Model of `split("\n")`: split a character list at every newline. -/
def splitCharsNl : List Char → List (List Char)
  | [] => [[]]
  | c :: cs =>
    let r := splitCharsNl cs
    if c = '\n' then [] :: r
    else
      match r with
      | h :: t => (c :: h) :: t
      | [] => [[c]]

/-- Model of `text.split("\n")` (character-list based so that concrete
traces evaluate). -/
def splitOnNl (s : String) : List String := (splitCharsNl s.data).map String.mk

/-- JavaScript truthiness of the `additional` alias (a string is falsy when
empty; an array is always truthy). -/
def additionalTruthy : Sum String (List String) → Bool
  | .inl s => !s.isEmpty
  | .inr _ => true

/-- Record construction in `_logFn` (steps before the throttle machinery):
start from the kind defaults with `date` = dispatch time and empty `args`;
a single non-raw argument passing `isLogObj` is merged via `Object.assign`
(its present fields overwrite, absent fields keep the defaults), otherwise
all arguments become positional `args`; then a truthy `message` is
unshifted onto `args` and deleted, a truthy `additional` is newline-joined
and appended; finally `type` is lower-cased (`"log"` when not a string)
and `tag` defaults to the empty string. -/
def buildLogObj (types : String → Option ENum) (defaults : InputLogObject)
    (args : List JVal) (isRaw : Bool) (now : Nat) : LogObject :=
  let merged : Option PObjFields :=
    match args with
    | [a] => if !isRaw && isLogObj a then
        (match a with | .pobj o => some o | _ => none) else none
    | _ => none
  let message : Option JPrim :=
    match merged with
    | some o => match o.message with | some p => some p | none => defaults.message
    | none => defaults.message
  let args0 : List JVal :=
    match merged with
    | some o => match o.args with | some l => l.map JVal.prim | none => []
    | none => args
  let args1 : List JVal :=
    if (fieldVal message).truthy then
      (match message with | some p => [JVal.prim p] | none => []) ++ args0
    else args0
  let args2 : List JVal :=
    match defaults.additional with
    | some a =>
      if additionalTruthy a then
        let lines := match a with | .inl s => splitOnNl s | .inr l => l
        args1 ++ [JVal.prim (.pstr ("\n" ++ String.intercalate "\n" lines))]
      else args1
    | none => args1
  { date := now
    level := _normalizeLogLevel (defaults.level.map Sum.inl) types
    type := (match defaults.type with | some s => sToLower s | none => "log")
    tag := defaults.tag.getD ""
    args := args2 }

/-- The per-instance dedup/throttle state `_lastLog`. -/
structure LastLog where
  serialized : Option String := none
  object : Option LogObject := none
  count : Option Nat := none
  time : Option Nat := none
  timeout : Option Nat := none
deriving DecidableEq, Repr

/-- The slice of `ConsolaOptions` the dispatch engine consults. -/
structure ConsolaOptions where
  level : ENum := .fin 3
  throttle : Nat := 1000
  throttleMin : Nat := 5
  reporters : List Nat := []
  defaults : InputLogObject := {}
  types : String → Option ENum := LogTypesFn

/-- The `resolveLog` closure of `_logFn`.  With `newLog = some obj` this is
`resolveLog(true)` for the freshly built record `obj`; with `newLog = none`
it is the deferred-timer call `resolveLog()` (the captured record is only
read in the `newLog` branch, so it need not be supplied).  First the
pending-repeat flush: if a previous record is stored and
`repeated = count - throttleMin > 0`, that record's arguments are
re-rendered, with a `"(repeated N times)"` annotation appended only when
`repeated > 1`, and the counter resets to 1.  Then the new record, if any,
is stored and rendered. -/
def resolveLog (opts : ConsolaOptions) (st : LastLog)
    (newLog : Option LogObject) : LastLog × List LogObject :=
  let repeated : Int := (st.count.getD 0 : Int) - (opts.throttleMin : Int)
  let flushed : LastLog × List LogObject :=
    match st.object with
    | some o =>
      if repeated > 0 then
        let args := o.args ++
          (if repeated > 1 then [JVal.prim (.pstr s!"(repeated {repeated} times)")] else [])
        ({ st with count := some 1 }, [{ o with args := args }])
      else (st, [])
    | none => (st, [])
  match newLog with
  | some obj => ({ flushed.1 with object := some obj }, flushed.2 ++ [obj])
  | none => flushed

/-- Function `_logFn`: severity gate, record construction, and the throttle state
machine.  Returns the updated `_lastLog` state together with the records
handed to `_log` (i.e. to the reporters), in order.  A timer handle is
modelled as the absolute time at which the scheduled `resolveLog` would
fire. -/
def logFn (opts : ConsolaOptions) (st : LastLog) (defaults : InputLogObject)
    (args : List JVal) (isRaw : Bool) (now : Nat) : LastLog × List LogObject :=
  if (levelOrZero defaults.level).gtb opts.level then (st, [])
  else
    let logObj := buildLogObj opts.types defaults args isRaw now
    let st1 := { st with timeout := none }
    let diffTime : Int :=
      match st1.time with
      | some t => (now : Int) - (t : Int)
      | none => 0
    let st2 := { st1 with time := some now }
    if diffTime < (opts.throttle : Int) then
      match serializeLog logObj.type logObj.tag logObj.args with
      | some serializedLog =>
        let isSameLog := st2.serialized = some serializedLog
        let st3 := { st2 with serialized := some serializedLog }
        if isSameLog then
          let cnt := st3.count.getD 0 + 1
          let st4 := { st3 with count := some cnt }
          if cnt > opts.throttleMin then
            ({ st4 with timeout := some (now + opts.throttle) }, [])
          else resolveLog opts st4 (some logObj)
        else resolveLog opts st3 (some logObj)
      | none =>
        -- JSON.stringify threw (cyclic arguments): the duplicate check is
        -- skipped for this record and dispatch proceeds
        resolveLog opts st2 (some logObj)
    else resolveLog opts st2 (some logObj)

/-- Firing of the deferred throttle-flush timer scheduled by `logFn`. -/
def fireTimeout (opts : ConsolaOptions) (st : LastLog) : LastLog × List LogObject :=
  resolveLog opts st none

/-- Function `_log`: hand one record to every registered reporter, in order. -/
def logAll (opts : ConsolaOptions) (o : LogObject) : List (Nat × LogObject) :=
  opts.reporters.map (fun r => (r, o))

/-- Kind call-site defaults built in the constructor:
`{ type, ...options.defaults, ...types[type] }` (each entry of the kind
table sets only `level`, which therefore overrides a default level). -/
def mkTypeDefaults (opts : ConsolaOptions) (type : String) : InputLogObject :=
  { type := some (opts.defaults.type.getD type)
    tag := opts.defaults.tag
    message := opts.defaults.message
    additional := opts.defaults.additional
    level :=
      match opts.types type with
      | some l => some l
      | none => opts.defaults.level }

/-- Function `withTag`: extend the default tag with `":" ++ tag` when a truthy
default tag exists (the empty string is falsy), else use `tag` alone. -/
def withTag (opts : ConsolaOptions) (tag : String) : ConsolaOptions :=
  { opts with defaults :=
      { opts.defaults with tag := some (
          match opts.defaults.tag with
          | some t => if t ≠ "" then t ++ ":" ++ tag else tag
          | none => tag) } }

/-- One entry of the process-wide pause queue:
`queue.push([this, defaults, args, isRaw])` in `_wrapLogFn`. -/
structure QueueItem where
  inst : Nat
  defaults : InputLogObject
  args : List JVal
  isRaw : Bool
deriving DecidableEq, Repr

/-- The process-wide mutable state shared by all instances (the module-level
`paused` flag and `queue` array) together with each instance's `_lastLog`,
indexed by an instance identifier. -/
structure SysState where
  paused : Bool := false
  queue : List QueueItem := []
  lastLogs : Nat → LastLog := fun _ => {}

/-- Function `pauseLogs`: set the process-wide pause flag. -/
def pauseLogs (s : SysState) : SysState := { s with paused := true }

/-- The call-site produced by `_wrapLogFn` for instance `i`: while paused
the call is enqueued (carrying the raw flag) and nothing is dispatched;
otherwise `_logFn` runs immediately.  The second component lists the
records handed to reporters, tagged with the dispatching instance. -/
def wrapLogFn (optsOf : Nat → ConsolaOptions) (i : Nat)
    (defaults : InputLogObject) (args : List JVal) (isRaw : Bool) (now : Nat)
    (s : SysState) : SysState × List (Nat × LogObject) :=
  if s.paused then
    ({ s with queue := s.queue ++ [⟨i, defaults, args, isRaw⟩] }, [])
  else
    let r := logFn (optsOf i) (s.lastLogs i) defaults args isRaw now
    ({ s with lastLogs := Function.update s.lastLogs i r.1 },
     r.2.map (fun o => (i, o)))

/-- The drain loop of `resumeLogs`:
`for (const item of _queue) item[0]._logFn(item[1], item[2])`.  Note the
source passes only `item[1]` and `item[2]`; the stored raw flag `item[3]`
is not forwarded, so every replay runs with `isRaw = undefined` (falsy).
Replay timestamps come from the single resume time `now`. -/
def drainQueue (optsOf : Nat → ConsolaOptions) (now : Nat) :
    List QueueItem → (Nat → LastLog) → (Nat → LastLog) × List (Nat × LogObject)
  | [], ls => (ls, [])
  | item :: rest, ls =>
    let r := logFn (optsOf item.inst) (ls item.inst) item.defaults item.args false now
    let tailRes := drainQueue optsOf now rest (Function.update ls item.inst r.1)
    (tailRes.1, r.2.map (fun o => (item.inst, o)) ++ tailRes.2)

/-- Function `resumeLogs`: clear the pause flag, splice the queue empty, then drain
the spliced items synchronously in FIFO order. -/
def resumeLogs (optsOf : Nat → ConsolaOptions) (now : Nat) (s : SysState) :
    SysState × List (Nat × LogObject) :=
  let r := drainQueue optsOf now s.queue s.lastLogs
  ({ paused := false, queue := [], lastLogs := r.1 }, r.2)

/-! Box drawing, from `src/utils/box.ts`. -/

/-- A border glyph set. -/
structure BoxBorderStyle where
  tl : String
  tr : String
  bl : String
  br : String
  h : String
  v : String
deriving DecidableEq, Repr

/-- The named border catalogue `boxStylePresets`. -/
def boxStylePresets : List (String × BoxBorderStyle) :=
  [("solid", ⟨"┌", "┐", "└", "┘", "─", "│"⟩),
   ("double", ⟨"╔", "╗", "╚", "╝", "═", "║"⟩),
   ("doubleSingle", ⟨"╓", "╖", "╙", "╜", "─", "║"⟩),
   ("doubleSingleRounded", ⟨"╭", "╮", "╰", "╯", "─", "║"⟩),
   ("singleThick", ⟨"┏", "┓", "┗", "┛", "━", "┃"⟩),
   ("singleDouble", ⟨"╒", "╕", "╘", "╛", "═", "│"⟩),
   ("singleDoubleRounded", ⟨"╭", "╮", "╰", "╯", "═", "│"⟩),
   ("rounded", ⟨"╭", "╮", "╰", "╯", "─", "│"⟩)]

/-- Vertical alignment of the box content. -/
inductive Valign where
  | top
  | center
  | bottom
deriving DecidableEq, Repr

/-- The (fully populated) box style; the source merges the caller's partial
style over `defaultStyle` before drawing. -/
structure BoxStyle where
  borderColor : String := "white"
  borderStyle : Sum String BoxBorderStyle := .inl "rounded"
  valign : Valign := .center
  padding : Nat := 2
  marginLeft : Nat := 1
  marginTop : Nat := 1
  marginBottom : Nat := 1
deriving Repr

/-- Value `defaultStyle` from the source. -/
def defaultStyle : BoxStyle := {}

/-- Box options after merging the style defaults. -/
structure BoxOpts where
  title : Option String := none
  style : BoxStyle := {}
deriving Repr

/-- A named style resolves through the preset catalogue, falling back to
`solid`; a literal glyph set is used as given. -/
def resolveBorderStyle : Sum String BoxBorderStyle → BoxBorderStyle
  | .inr b => b
  | .inl name => (boxStylePresets.lookup name).getD ⟨"┌", "┐", "└", "┘", "─", "│"⟩

/-- Model of `String.prototype.repeat`. -/
def sRepeat (s : String) : Nat → String
  | 0 => ""
  | n + 1 => s ++ sRepeat s n

/-- Character class `[[\]()#;?]` of the ANSI regex (the glyphs allowed
right after the escape byte). -/
def isAnsiIntermediate (c : Char) : Bool :=
  c = '[' || c = ']' || c = '(' || c = ')' || c = '#' || c = ';' || c = '?'

/-- Final-byte class `[\dA-PR-TZcf-nq-uy=><~]` of the ANSI regex. -/
def isAnsiFinal (c : Char) : Bool :=
  c.isDigit || ('A' ≤ c && c ≤ 'P') || ('R' ≤ c && c ≤ 'T') || c = 'Z' ||
  c = 'c' || ('f' ≤ c && c ≤ 'n') || ('q' ≤ c && c ≤ 'u') || c = 'y' ||
  c = '=' || c = '>' || c = '<' || c = '~'

/-- Character class `[-a-zA-Z\d\/#&.:=?%@~_]` of the BEL-terminated branch
of the ANSI regex (with the separating `;` added). -/
def isAnsiLink (c : Char) : Bool :=
  c = '-' || c.isAlpha || c.isDigit || c = '/' || c = '#' || c = '&' ||
  c = '.' || c = ':' || c = '=' || c = '?' || c = '%' || c = '@' ||
  c = '~' || c = '_' || c = ';'

/-- Escape-sequence matcher backing `stripAnsi`: given the characters after
an escape byte, return the remainder after a matched sequence.  This models
the source's regular expression on well-formed escape sequences (the
leading intermediate glyphs, then either a BEL-terminated body or an
optional numeric parameter list followed by a final byte); the theorems
proved below do not depend on its behaviour. -/
def matchAnsi (cs : List Char) : Option (List Char) :=
  let cs1 := cs.dropWhile isAnsiIntermediate
  match cs1.dropWhile isAnsiLink with
  | c :: r =>
    if c.toNat = 7 then some r
    else
      match cs1.dropWhile (fun c => c.isDigit || c = ';') with
      | c :: r => if isAnsiFinal c then some r else none
      | [] => none
  | [] =>
    match cs1.dropWhile (fun c => c.isDigit || c = ';') with
    | c :: r => if isAnsiFinal c then some r else none
    | [] => none

/-- Fuelled scanner for `stripAnsi` (the fuel is an upper bound on the
remaining characters, so it never runs out). -/
def stripAnsiGo : Nat → List Char → List Char
  | 0, _ => []
  | _ + 1, [] => []
  | fuel + 1, c :: cs =>
    if c.toNat = 27 || c.toNat = 155 then
      match matchAnsi cs with
      | some rest => stripAnsiGo fuel rest
      | none => c :: stripAnsiGo fuel cs
    else c :: stripAnsiGo fuel cs

/-- Function `stripAnsi` from `src/utils/string.ts`: remove ANSI escape sequences. -/
def stripAnsi (s : String) : String :=
  String.mk (stripAnsiGo (s.length + 1) s.data)

/-- The line list assembled by `box` before the final newline join.  The
parameter `col` is the border-colour function `getColor(borderColor)` (the
identity in a colour-disabled environment); the source wraps every border
glyph with it once before composing lines, and (since `getColor` always
returns a function) colours the title with it as well.  Note the top and
bottom margins push `"".repeat(margin)`, which is the empty string for
every margin value, hence a single blank line.  In the title branch the
source computes `Math.floor` of a possibly negative difference and calls
`String.prototype.repeat` on it (which would throw); the model clamps at
zero, and no theorem below exercises an over-long title. -/
def boxLines (col : String → String) (text : String) (opts : BoxOpts) :
    List String :=
  let textLines := splitOnNl text
  let bs0 := resolveBorderStyle opts.style.borderStyle
  let bs : BoxBorderStyle :=
    ⟨col bs0.tl, col bs0.tr, col bs0.bl, col bs0.br, col bs0.h, col bs0.v⟩
  let paddingOffset :=
    if opts.style.padding % 2 = 0 then opts.style.padding else opts.style.padding + 1
  let height := textLines.length + paddingOffset
  let width := (textLines.map (fun l => (stripAnsi l).length)).foldl max 0 + paddingOffset
  let widthOffset := width + paddingOffset
  let leftSpace :=
    if opts.style.marginLeft > 0 then sRepeat " " opts.style.marginLeft else ""
  let top : List String :=
    if opts.style.marginTop > 0 then [sRepeat "" opts.style.marginTop] else []
  let topBorder : String :=
    match opts.title with
    | some title =>
      let titleC := col title
      let left := sRepeat bs.h (((width : Int) - ((stripAnsi title).length : Int)) / 2).toNat
      let right := sRepeat bs.h
        (((width : Int) - ((stripAnsi title).length : Int)
          - ((stripAnsi left).length : Int) + (paddingOffset : Int))).toNat
      leftSpace ++ bs.tl ++ left ++ titleC ++ right ++ bs.tr
    | none => leftSpace ++ bs.tl ++ sRepeat bs.h widthOffset ++ bs.tr
  let valignOffset :=
    match opts.style.valign with
    | .center => (height - textLines.length) / 2
    | .top => height - textLines.length - paddingOffset
    | .bottom => height - textLines.length
  let content : List String := (List.range height).map (fun i =>
    if i < valignOffset || valignOffset + textLines.length ≤ i then
      leftSpace ++ bs.v ++ sRepeat " " widthOffset ++ bs.v
    else
      let line := textLines.getD (i - valignOffset) ""
      leftSpace ++ bs.v ++ sRepeat " " paddingOffset ++ line
        ++ sRepeat " " (width - (stripAnsi line).length) ++ bs.v)
  let bottomBorder := leftSpace ++ bs.bl ++ sRepeat bs.h widthOffset ++ bs.br
  let bottom : List String :=
    if opts.style.marginBottom > 0 then [sRepeat "" opts.style.marginBottom] else []
  top ++ [topBorder] ++ content ++ [bottomBorder] ++ bottom

/-- Function `box`: the assembled lines joined with newlines. -/
def box (col : String → String) (text : String) (opts : BoxOpts) : String :=
  String.intercalate "\n" (boxLines col text opts)

/-! Tree drawing, from `src/utils/tree.ts`. -/

/-- A tree item: a bare label, or an object with a label, an optional
colour and an optional child list. -/
inductive TreeItem where
  | str (s : String)
  | obj (text : String) (color : Option String) (children : Option (List TreeItem))
deriving Repr

/-- Options reaching `_buildTree` (after `formatTree` fills the defaults).
The source field `prefix` is named `indent` here because `prefix` is a
reserved word in this development's surface syntax. -/
structure TreeOpts where
  indent : String := "  "
  ellipsis : String := "..."
  maxDepth : Option Int := none
deriving Repr

/-- Function `_buildTree`, with the per-iteration depth-limit check of the source
loop: when the remaining `maxDepth` is defined and `≤ 0`, the loop returns
on its first iteration with a single ellipsis line, coloured with the first
item's colour when that item is an object carrying one.  Otherwise each
item is rendered with a branch glyph (`└─` for the last item, `├─`
elsewhere) and an object's children are rendered one level deeper with the
indent extended and `maxDepth` decremented.  `col` is the
environment-dependent `colorize` function. -/
def _buildTree (col : String → String → String) (o : TreeOpts) :
    List TreeItem → List String
  | [] => []
  | item :: rest =>
    if o.maxDepth.any (fun d => d ≤ 0) then
      let ellipsis := o.indent ++ o.ellipsis ++ "\n"
      [match item with
       | .str _ => ellipsis
       | .obj _ color _ =>
         match color with
         | some c => col c ellipsis
         | none => ellipsis]
    else
      let isLast := rest.isEmpty
      let pref := o.indent ++ (if isLast then "└─" else "├─")
      let chunk : List String :=
        match item with
        | .str s => [pref ++ s ++ "\n"]
        | .obj text color children =>
          let log := pref ++ text ++ "\n"
          let line := match color with | some c => col c log | none => log
          let childChunks : List String :=
            match children with
            | some cs =>
              _buildTree col
                { o with maxDepth := o.maxDepth.map (fun d => d - 1),
                         indent := o.indent ++ (if isLast then "  " else "│  ") } cs
            | none => []
          line :: childChunks
      chunk ++ _buildTree col o rest

/-- Function `formatTree`: build the chunks, join them, and colour the whole tree
when a tree-wide colour is configured. -/
def formatTree (col : String → String → String) (items : List TreeItem)
    (color : Option String) (o : TreeOpts) : String :=
  let tree := String.join (_buildTree col o items)
  match color with
  | some c => col c tree
  | none => tree

/-! Definitions supporting the verification scenarios. -/

/-- The option record a bare `createConsola()` instance ends up with
(constructor defaults: level 3, `throttle` 1000, `throttleMin` 5, the
standard kind table). -/
def defaultOptions : ConsolaOptions := {}

/-- Iterated dispatch through `_logFn`: run a list of
(kind-defaults, arguments, raw flag, timestamp) dispatches in order from a
starting `_lastLog` state, collecting each dispatch's rendered records. -/
def runDispatches (opts : ConsolaOptions) (st : LastLog) :
    List (InputLogObject × List JVal × Bool × Nat) → LastLog × List (List LogObject)
  | [] => (st, [])
  | (d, a, r, t) :: rest =>
    let x := logFn opts st d a r t
    let y := runDispatches opts x.1 rest
    (y.1, x.2 :: y.2)

/-! Helper lemmas about the throttle machinery. -/

/-- The `resolveLog` closure never touches the stored timestamp. -/
theorem resolveLog_time (opts : ConsolaOptions) (st : LastLog)
    (n : Option LogObject) : (resolveLog opts st n).1.time = st.time := by
  unfold resolveLog
  cases st.object <;> cases n <;> dsimp <;> split <;> rfl

/-- The `resolveLog` closure never touches the stored fingerprint. -/
theorem resolveLog_serialized (opts : ConsolaOptions) (st : LastLog)
    (n : Option LogObject) : (resolveLog opts st n).1.serialized = st.serialized := by
  unfold resolveLog
  cases st.object <;> cases n <;> dsimp <;> split <;> rfl

/-- While the repeat counter has not reached `throttleMin`, rendering a new
record neither flushes nor annotates: the record is stored and rendered
alone. -/
theorem resolveLog_no_repeat (opts : ConsolaOptions) (st : LastLog)
    (obj : LogObject) (h : st.count.getD 0 ≤ opts.throttleMin) :
    resolveLog opts st (some obj) = ({ st with object := some obj }, [obj]) := by
  unfold resolveLog
  have hle : ¬((st.count.getD 0 : Int) - (opts.throttleMin : Int) > 0) := by
    omega
  cases st.object <;> simp [hle]

/-- A dispatch that passes the severity gate while the repeat counter is
still below `throttleMin` renders exactly the newly built record, and grows
the repeat counter by at most one. -/
theorem logFn_renders_single (opts : ConsolaOptions) (st : LastLog)
    (d : InputLogObject) (a : List JVal) (raw : Bool) (now : Nat)
    (hlevel : (levelOrZero d.level).gtb opts.level = false)
    (hcount : st.count.getD 0 + 1 ≤ opts.throttleMin) :
    (logFn opts st d a raw now).2 = [buildLogObj opts.types d a raw now] ∧
    (logFn opts st d a raw now).1.count.getD 0 ≤ st.count.getD 0 + 1 := by
  unfold logFn
  rw [hlevel]
  dsimp
  split
  · split
    · split
      · have hgt : ¬(st.count.getD 0 + 1 > opts.throttleMin) := by omega
        rw [if_neg hgt, resolveLog_no_repeat _ _ _ (by dsimp; omega)]
        exact ⟨rfl, by dsimp; omega⟩
      · rw [resolveLog_no_repeat _ _ _ (by dsimp; omega)]
        exact ⟨rfl, by dsimp; omega⟩
    · rw [resolveLog_no_repeat _ _ _ (by dsimp; omega)]
      exact ⟨rfl, by dsimp; omega⟩
  · rw [resolveLog_no_repeat _ _ _ (by dsimp; omega)]
    exact ⟨rfl, by dsimp; omega⟩

/-! Claim theorems. -/

/-- C2.  Severity filtering in `_logFn`: a dispatched record whose resolved
severity (every configured kind carries an explicit numeric level, so the
gate's `(defaults.level || 0)` equals the normalized severity) is
numerically greater than the instance threshold is dropped immediately —
the result is the untouched state and no rendered record — while a record
whose severity is not greater proceeds into the dedup machinery (its
dispatch time is recorded).  In particular a `-Infinity` ("silent")
threshold drops every configured kind (each kind's level, including the
`silent` kind's finite `-1`, compares greater than `-Infinity`), and a
`+Infinity` ("verbose") threshold admits every record. -/
theorem logFn_severity_filter :
    (∀ (opts : ConsolaOptions) (st : LastLog) (d : InputLogObject)
       (a : List JVal) (raw : Bool) (now : Nat) (l : ENum),
       d.level = some l →
       (l.gtb opts.level = true → logFn opts st d a raw now = (st, [])) ∧
       (l.gtb opts.level = false →
         (logFn opts st d a raw now).1.time = some now)) ∧
    (∀ (opts : ConsolaOptions) (st : LastLog) (d : InputLogObject)
       (a : List JVal) (raw : Bool) (now : Nat) (kind : String) (l : ENum),
       (kind, l) ∈ LogTypes → d.level = some l → opts.level = .negInf →
       logFn opts st d a raw now = (st, [])) ∧
    (∀ (opts : ConsolaOptions) (st : LastLog) (d : InputLogObject)
       (a : List JVal) (raw : Bool) (now : Nat) (l : ENum),
       d.level = some l → opts.level = .posInf →
       (logFn opts st d a raw now).1.time = some now) := by
  have base : ∀ (opts : ConsolaOptions) (st : LastLog) (d : InputLogObject)
      (a : List JVal) (raw : Bool) (now : Nat) (l : ENum),
      d.level = some l →
      (l.gtb opts.level = true → logFn opts st d a raw now = (st, [])) ∧
      (l.gtb opts.level = false →
        (logFn opts st d a raw now).1.time = some now) := by
    intro opts st d a raw now l hl
    constructor
    · intro hgt
      unfold logFn
      rw [hl]
      simp [levelOrZero, hgt]
    · intro hgt
      unfold logFn
      rw [hl]
      simp only [levelOrZero, hgt, Bool.false_eq_true, if_false]
      split
      · split
        · split
          · split
            · rfl
            · rw [resolveLog_time]
          · rw [resolveLog_time]
        · rw [resolveLog_time]
      · rw [resolveLog_time]
  refine ⟨base, ?_, ?_⟩
  · intro opts st d a raw now kind l hmem hl hneg
    refine (base opts st d a raw now l hl).1 ?_
    rw [hneg]
    have : ∀ p ∈ LogTypes, (Prod.snd p).gtb ENum.negInf = true := by decide
    exact this (kind, l) hmem
  · intro opts st d a raw now l hl hpos
    refine (base opts st d a raw now l hl).2 ?_
    rw [hpos]
    cases l <;> rfl

/-- Witness for C2 at a concrete input: the `debug` kind (level 4) against
the default threshold 3 is dropped; the `warn` kind (level 1) is admitted
and stamps the dedup state. -/
theorem logFn_severity_filter_witness :
    ((mkTypeDefaults defaultOptions "debug").level = some (.fin 4) ∧
     ENum.gtb (.fin 4) defaultOptions.level = true ∧
     logFn defaultOptions {} (mkTypeDefaults defaultOptions "debug")
       [.prim (.pstr "x")] false 7 = ({}, [])) ∧
    ((mkTypeDefaults defaultOptions "warn").level = some (.fin 1) ∧
     ENum.gtb (.fin 1) defaultOptions.level = false ∧
     (logFn defaultOptions {} (mkTypeDefaults defaultOptions "warn")
       [.prim (.pstr "x")] false 7).1.time = some 7) :=
  ⟨⟨by decide, by decide,
    (logFn_severity_filter.1 defaultOptions {} _ [.prim (.pstr "x")] false 7
      (.fin 4) (by decide)).1 (by decide)⟩,
   ⟨by decide, by decide,
    (logFn_severity_filter.1 defaultOptions {} _ [.prim (.pstr "x")] false 7
      (.fin 1) (by decide)).2 (by decide)⟩⟩

/-- C6.  Structural record detection on a non-raw single-argument dispatch:
a plain object carrying a (truthy) `message` and no `stack` is merged as a
pre-built partial record (its message is unshifted into the positional
arguments); a plain object carrying an `args` array and no `stack` is
likewise merged (its array becomes the positional arguments); the same
message object augmented with a (truthy) `stack` field fails the detection
and is passed through as one literal positional value. -/
theorem isLogObj_merge_semantics (types : String → Option ENum)
    (d : InputLogObject) (now : Nat) (s t : String) (l : List JPrim)
    (hm : d.message = none) (ha : d.additional = none)
    (hs : s ≠ "") (ht : t ≠ "") :
    (isLogObj (.pobj { message := some (.pstr s) }) = true ∧
     (buildLogObj types d [.pobj { message := some (.pstr s) }] false now).args
       = [.prim (.pstr s)]) ∧
    (isLogObj (.pobj { args := some l }) = true ∧
     (buildLogObj types d [.pobj { args := some l }] false now).args
       = l.map JVal.prim) ∧
    (isLogObj (.pobj { message := some (.pstr s), stack := some (.pstr t) }) = false ∧
     (buildLogObj types d
        [.pobj { message := some (.pstr s), stack := some (.pstr t) }] false now).args
       = [.pobj { message := some (.pstr s), stack := some (.pstr t) }]) := by
  have hs' : s.isEmpty = false := by
    rw [Bool.eq_false_iff]; intro hc; exact hs ((String.isEmpty_iff s).1 hc)
  have ht' : t.isEmpty = false := by
    rw [Bool.eq_false_iff]; intro hc; exact ht ((String.isEmpty_iff t).1 hc)
  refine ⟨⟨?_, ?_⟩, ⟨?_, ?_⟩, ⟨?_, ?_⟩⟩ <;>
    simp [isLogObj, buildLogObj, fieldVal, JPrim.truthy, hm, ha, hs', ht']

/-- Witness for C6 at concrete inputs (`message` `"hello"`, `stack`
`"trace"`, `args` `[42]`). -/
theorem isLogObj_merge_semantics_witness :
    (({} : InputLogObject).message = none ∧ ("hello" : String) ≠ "") ∧
    ((isLogObj (.pobj { message := some (.pstr "hello") }) = true ∧
      (buildLogObj LogTypesFn {} [.pobj { message := some (.pstr "hello") }] false 0).args
        = [.prim (.pstr "hello")]) ∧
     (isLogObj (.pobj { args := some [.pnum 42] }) = true ∧
      (buildLogObj LogTypesFn {} [.pobj { args := some [.pnum 42] }] false 0).args
        = [.prim (.pnum 42)]) ∧
     (isLogObj (.pobj { message := some (.pstr "hello"), stack := some (.pstr "trace") }) = false ∧
      (buildLogObj LogTypesFn {}
         [.pobj { message := some (.pstr "hello"), stack := some (.pstr "trace") }] false 0).args
        = [.pobj { message := some (.pstr "hello"), stack := some (.pstr "trace") }])) :=
  ⟨⟨by decide, by decide⟩,
   isLogObj_merge_semantics LogTypesFn {} 0 "hello" "trace" [.pnum 42]
     (by decide) (by decide) (by decide) (by decide)⟩

/-- C8.  The structural detection tests truthiness, not presence: an object
whose `message` is the empty string (falsy) and which has no `args` field
fails `isLogObj` and is passed through as a literal positional value, while
an object whose `stack` field is present but falsy (`undefined`) still
passes and is merged as a record. -/
theorem isLogObj_truthiness (types : String → Option ENum)
    (d : InputLogObject) (now : Nat) (s : String)
    (hm : d.message = none) (ha : d.additional = none) (hs : s ≠ "") :
    (isLogObj (.pobj { message := some (.pstr "") }) = false ∧
     (buildLogObj types d [.pobj { message := some (.pstr "") }] false now).args
       = [.pobj { message := some (.pstr "") }]) ∧
    (isLogObj (.pobj { message := some (.pstr s), stack := some .pundef }) = true ∧
     (buildLogObj types d
        [.pobj { message := some (.pstr s), stack := some .pundef }] false now).args
       = [.prim (.pstr s)]) := by
  have hs' : s.isEmpty = false := by
    rw [Bool.eq_false_iff]; intro hc; exact hs ((String.isEmpty_iff s).1 hc)
  have h0 : ("" : String).isEmpty = true := rfl
  refine ⟨⟨?_, ?_⟩, ⟨?_, ?_⟩⟩ <;>
    simp [isLogObj, buildLogObj, fieldVal, JPrim.truthy, hm, ha, hs', h0]

/-- Witness for C8 at a concrete input. -/
theorem isLogObj_truthiness_witness :
    (({} : InputLogObject).message = none ∧ ("hi" : String) ≠ "") ∧
    ((isLogObj (.pobj { message := some (.pstr "") }) = false ∧
      (buildLogObj LogTypesFn {} [.pobj { message := some (.pstr "") }] false 3).args
        = [.pobj { message := some (.pstr "") }]) ∧
     (isLogObj (.pobj { message := some (.pstr "hi"), stack := some .pundef }) = true ∧
      (buildLogObj LogTypesFn {}
         [.pobj { message := some (.pstr "hi"), stack := some .pundef }] false 3).args
        = [.prim (.pstr "hi")])) :=
  ⟨⟨by decide, by decide⟩,
   isLogObj_truthiness LogTypesFn {} 3 "hi" (by decide) (by decide) (by decide)⟩

/-- C9.  Tag composition is a colon-joined fold: with no default tag,
`withTag a` makes every record carry tag exactly `a`; with a (nonempty)
default tag `t`, `withTag b` makes records carry `t ++ ":" ++ b`; hence
`withTag a` then `withTag b` (for nonempty `a`) yields `a ++ ":" ++ b`.
The record-level statements go through the kind call-site defaults and
`buildLogObj`, for any kind name and any arguments. -/
theorem withTag_colon_fold (opts : ConsolaOptions) (a b t ty : String)
    (args : List JVal) (raw : Bool) (now : Nat) :
    (opts.defaults.tag = none →
      (withTag opts a).defaults.tag = some a ∧
      (buildLogObj (withTag opts a).types
         (mkTypeDefaults (withTag opts a) ty) args raw now).tag = a ∧
      (a ≠ "" →
        (withTag (withTag opts a) b).defaults.tag = some (a ++ ":" ++ b) ∧
        (buildLogObj (withTag (withTag opts a) b).types
           (mkTypeDefaults (withTag (withTag opts a) b) ty) args raw now).tag
          = a ++ ":" ++ b)) ∧
    (opts.defaults.tag = some t → t ≠ "" →
      (withTag opts b).defaults.tag = some (t ++ ":" ++ b) ∧
      (buildLogObj (withTag opts b).types
         (mkTypeDefaults (withTag opts b) ty) args raw now).tag
        = t ++ ":" ++ b) := by
  have wtag : ∀ (o : ConsolaOptions) (u : String),
      (withTag o u).defaults.tag = some (
        match o.defaults.tag with
        | some t => if t ≠ "" then t ++ ":" ++ u else u
        | none => u) := fun _ _ => rfl
  have tag_of : ∀ (o : ConsolaOptions) (u : String), o.defaults.tag = some u →
      (buildLogObj o.types (mkTypeDefaults o ty) args raw now).tag = u := by
    intro o u hu
    show ((mkTypeDefaults o ty).tag).getD "" = u
    rw [show (mkTypeDefaults o ty).tag = o.defaults.tag from rfl, hu]
    rfl
  constructor
  · intro hnone
    have h1 : (withTag opts a).defaults.tag = some a := by
      rw [wtag, hnone]
    refine ⟨h1, tag_of _ _ h1, ?_⟩
    intro hane
    have h2 : (withTag (withTag opts a) b).defaults.tag = some (a ++ ":" ++ b) := by
      rw [wtag, h1]
      simp [hane]
    exact ⟨h2, tag_of _ _ h2⟩
  · intro hsome htne
    have h3 : (withTag opts b).defaults.tag = some (t ++ ":" ++ b) := by
      rw [wtag, hsome]
      simp [htne]
    exact ⟨h3, tag_of _ _ h3⟩

/-- Witness for C9: from the default (tagless) options,
`withTag "a"` then `withTag "b"` tags an `info` record `"a:b"`. -/
theorem withTag_colon_fold_witness :
    (defaultOptions.defaults.tag = none ∧ ("a" : String) ≠ "") ∧
    (withTag defaultOptions "a").defaults.tag = some "a" ∧
    (buildLogObj (withTag defaultOptions "a").types
       (mkTypeDefaults (withTag defaultOptions "a") "info") [] false 0).tag = "a" ∧
    (withTag (withTag defaultOptions "a") "b").defaults.tag = some ("a" ++ ":" ++ "b") ∧
    (buildLogObj (withTag (withTag defaultOptions "a") "b").types
       (mkTypeDefaults (withTag (withTag defaultOptions "a") "b") "info") [] false 0).tag
      = "a" ++ ":" ++ "b" := by
  have h := (withTag_colon_fold defaultOptions "a" "b" "" "info" [] false 0).1
    (by decide)
  exact ⟨⟨by decide, by decide⟩, h.1, h.2.1, (h.2.2 (by decide)).1, (h.2.2 (by decide)).2⟩

/-- C1 (counterexample).  With the default `throttleMin = 5` and
`throttle = 1000`, the claim predicts that the 6th identical dispatch
within the window renders nothing immediately; in fact the suppression
condition is `count > throttleMin`, the counter only counts repeats (it is
not touched by the first dispatch), so the 6th identical dispatch still
renders (its output is nonempty). -/
theorem throttle_sixth_renders :
    ((runDispatches defaultOptions {}
        ((List.range 6).map (fun i =>
          (mkTypeDefaults defaultOptions "info",
           [JVal.prim (.pstr "hello")], false, 10 * i)))).2.getD 5 []) ≠ [] := by
  decide

/-- C1 (amended).  With `throttleMin = 5` and `throttle = 1000`, the first
6 identical dispatches within the window render individually; the 7th
identical dispatch renders nothing immediately; when an 8th, different
record follows within the window, the pending repeat of the 7th flushes
(re-rendering the stored record, with no "(repeated N times)" annotation
since the pending repeat count is `7 - 1 - 5 = 1`, and the annotation is
appended only when that count exceeds 1) before the different record. -/
theorem throttle_trace_amended :
    (runDispatches defaultOptions {}
        (((List.range 7).map (fun i =>
            (mkTypeDefaults defaultOptions "info",
             [JVal.prim (.pstr "hello")], false, 10 * i)))
          ++ [(mkTypeDefaults defaultOptions "info",
               [JVal.prim (.pstr "world")], false, 70)])).2
      = [[⟨0, .fin 3, "info", "", [.prim (.pstr "hello")]⟩],
         [⟨10, .fin 3, "info", "", [.prim (.pstr "hello")]⟩],
         [⟨20, .fin 3, "info", "", [.prim (.pstr "hello")]⟩],
         [⟨30, .fin 3, "info", "", [.prim (.pstr "hello")]⟩],
         [⟨40, .fin 3, "info", "", [.prim (.pstr "hello")]⟩],
         [⟨50, .fin 3, "info", "", [.prim (.pstr "hello")]⟩],
         [],
         [⟨50, .fin 3, "info", "", [.prim (.pstr "hello")]⟩,
          ⟨70, .fin 3, "info", "", [.prim (.pstr "world")]⟩]] := by
  decide

/-- C3 (code bug).  A raw-variant dispatch while paused stores the raw flag
on the queue item, but `resumeLogs` replays `item[0]._logFn(item[1],
item[2])` without forwarding `item[3]`, so the replay runs non-raw: for a
single plain-object argument with a message and no stack, the immediate raw
dispatch renders it as a literal positional value while the replay merges
it as a pre-built record — the two disagree. -/
theorem resume_drops_raw_flag :
    ((wrapLogFn (fun _ => defaultOptions) 0
        (mkTypeDefaults defaultOptions "log")
        [.pobj { message := some (.pstr "hi") }] true 0 {}).2
      = [(0, ⟨0, .fin 2, "log", "", [.pobj { message := some (.pstr "hi") }]⟩)]) ∧
    ((wrapLogFn (fun _ => defaultOptions) 0
        (mkTypeDefaults defaultOptions "log")
        [.pobj { message := some (.pstr "hi") }] true 0 (pauseLogs {})).2 = []) ∧
    ((wrapLogFn (fun _ => defaultOptions) 0
        (mkTypeDefaults defaultOptions "log")
        [.pobj { message := some (.pstr "hi") }] true 0 (pauseLogs {})).1.queue
      = [⟨0, mkTypeDefaults defaultOptions "log",
          [.pobj { message := some (.pstr "hi") }], true⟩]) ∧
    ((resumeLogs (fun _ => defaultOptions) 0
        (wrapLogFn (fun _ => defaultOptions) 0
          (mkTypeDefaults defaultOptions "log")
          [.pobj { message := some (.pstr "hi") }] true 0 (pauseLogs {})).1).2
      = [(0, ⟨0, .fin 2, "log", "", [.prim (.pstr "hi")]⟩)]) ∧
    [(0, (⟨0, .fin 2, "log", "", [.prim (.pstr "hi")]⟩ : LogObject))]
      ≠ [(0, (⟨0, .fin 2, "log", "", [.pobj { message := some (.pstr "hi") }]⟩ : LogObject))] := by
  refine ⟨by decide, by decide, by decide, by decide, by decide⟩

/-- C5.  A record whose arguments cannot be fingerprinted (its
serialization fails): dispatch still completes, the built record is always
rendered (never suppressed), the stored fingerprint is left untouched (the
duplicate check is skipped for this record only), and the record reaches
every registered reporter. -/
theorem logFn_serialize_failure (opts : ConsolaOptions) (st : LastLog)
    (d : InputLogObject) (a : List JVal) (raw : Bool) (now : Nat)
    (hlevel : (levelOrZero d.level).gtb opts.level = false)
    (hser : serializeLog (buildLogObj opts.types d a raw now).type
              (buildLogObj opts.types d a raw now).tag
              (buildLogObj opts.types d a raw now).args = none) :
    buildLogObj opts.types d a raw now ∈ (logFn opts st d a raw now).2 ∧
    (logFn opts st d a raw now).1.serialized = st.serialized ∧
    ∀ r ∈ opts.reporters,
      (r, buildLogObj opts.types d a raw now) ∈
        ((logFn opts st d a raw now).2.flatMap (logAll opts)) := by
  have hmain : buildLogObj opts.types d a raw now ∈ (logFn opts st d a raw now).2 ∧
      (logFn opts st d a raw now).1.serialized = st.serialized := by
    unfold logFn
    rw [hlevel]
    simp only [Bool.false_eq_true, if_false]
    split
    · rw [hser]
      constructor
      · show _ ∈ (resolveLog _ _ _).2
        unfold resolveLog
        cases h : ({ st with timeout := none, time := some now } : LastLog).object <;>
          simp
      · rw [resolveLog_serialized]
    · constructor
      · show _ ∈ (resolveLog _ _ _).2
        unfold resolveLog
        cases h : ({ st with timeout := none, time := some now } : LastLog).object <;>
          simp
      · rw [resolveLog_serialized]
  refine ⟨hmain.1, hmain.2, ?_⟩
  intro r hr
  refine List.mem_flatMap.2 ⟨buildLogObj opts.types d a raw now, hmain.1, ?_⟩
  exact List.mem_map.2 ⟨r, hr, rfl⟩

/-- Witness for C5: a cyclic positional argument on an `info` dispatch with
one registered reporter. -/
theorem logFn_serialize_failure_witness :
    ((levelOrZero (mkTypeDefaults { reporters := [0] } "info").level).gtb
        (ConsolaOptions.level { reporters := [0] }) = false ∧
     serializeLog
       (buildLogObj (ConsolaOptions.types { reporters := [0] })
         (mkTypeDefaults { reporters := [0] } "info") [.cyclic] false 5).type
       (buildLogObj (ConsolaOptions.types { reporters := [0] })
         (mkTypeDefaults { reporters := [0] } "info") [.cyclic] false 5).tag
       (buildLogObj (ConsolaOptions.types { reporters := [0] })
         (mkTypeDefaults { reporters := [0] } "info") [.cyclic] false 5).args = none) ∧
    (buildLogObj (ConsolaOptions.types { reporters := [0] })
        (mkTypeDefaults { reporters := [0] } "info") [.cyclic] false 5 ∈
      (logFn { reporters := [0] } {}
        (mkTypeDefaults { reporters := [0] } "info") [.cyclic] false 5).2 ∧
     (logFn { reporters := [0] } {}
        (mkTypeDefaults { reporters := [0] } "info") [.cyclic] false 5).1.serialized
       = LastLog.serialized {} ∧
     ∀ r ∈ ConsolaOptions.reporters { reporters := [0] },
       (r, buildLogObj (ConsolaOptions.types { reporters := [0] })
             (mkTypeDefaults { reporters := [0] } "info") [.cyclic] false 5) ∈
         ((logFn { reporters := [0] } {}
             (mkTypeDefaults { reporters := [0] } "info") [.cyclic] false 5).2.flatMap
           (logAll { reporters := [0] }))) :=
  ⟨⟨by decide, by decide⟩,
   logFn_serialize_failure { reporters := [0] } {}
     (mkTypeDefaults { reporters := [0] } "info") [.cyclic] false 5
     (by decide) (by decide)⟩

/-- Execution of a sequence of call-site invocations
`(instance, kind-defaults, arguments, raw flag, time)` through the wrapped
log functions, collecting every record handed to reporters. -/
def runCalls (optsOf : Nat → ConsolaOptions) :
    List (Nat × InputLogObject × List JVal × Bool × Nat) → SysState →
      SysState × List (Nat × LogObject)
  | [], s => (s, [])
  | (i, d, a, r, t) :: rest, s =>
    let x := wrapLogFn optsOf i d a r t s
    let y := runCalls optsOf rest x.1
    (y.1, x.2 ++ y.2)

/-- Dispatching while paused only enqueues: no record is rendered, the
pause flag and the per-instance dedup states are untouched, and the
dispatches extend the shared queue in submission order. -/
theorem runCalls_paused (optsOf : Nat → ConsolaOptions) :
    ∀ (calls : List (Nat × InputLogObject × List JVal × Bool × Nat))
      (s0 : SysState), s0.paused = true →
      (runCalls optsOf calls s0).2 = [] ∧
      (runCalls optsOf calls s0).1.paused = true ∧
      (runCalls optsOf calls s0).1.lastLogs = s0.lastLogs ∧
      (runCalls optsOf calls s0).1.queue
        = s0.queue ++ calls.map (fun c => ⟨c.1, c.2.1, c.2.2.1, c.2.2.2.1⟩) := by
  intro calls
  induction calls with
  | nil =>
    intro s0 h
    simp [runCalls, h]
  | cons c rest ih =>
    intro s0 h
    obtain ⟨i, d, a, r, t⟩ := c
    have hw : wrapLogFn optsOf i d a r t s0
        = ({ s0 with queue := s0.queue ++ [⟨i, d, a, r⟩] }, []) := by
      unfold wrapLogFn
      rw [h]
      simp
    have ih' := ih { s0 with queue := s0.queue ++ [⟨i, d, a, r⟩] } h
    simp only [runCalls, hw]
    refine ⟨by simpa using ih'.1, ih'.2.1, ih'.2.2.1, ?_⟩
    rw [ih'.2.2.2]
    simp

/-- Draining a concatenation of queues processes the first part fully and
then the second from the state the first produced, concatenating their
outputs in order — the order- and multiplicity-preserving structure of the
drain loop. -/
theorem drainQueue_append (optsOf : Nat → ConsolaOptions) (now : Nat) :
    ∀ (q1 q2 : List QueueItem) (ls : Nat → LastLog),
      drainQueue optsOf now (q1 ++ q2) ls
        = ((drainQueue optsOf now q2 (drainQueue optsOf now q1 ls).1).1,
           (drainQueue optsOf now q1 ls).2
             ++ (drainQueue optsOf now q2 (drainQueue optsOf now q1 ls).1).2) := by
  intro q1
  induction q1 with
  | nil =>
    intro q2 ls
    simp [drainQueue]
  | cons item rest ih =>
    intro q2 ls
    simp [drainQueue, ih]

/-- C4.  For every sequence of dispatches made while logging is paused
(any number of them, any instances, kinds, arguments, raw flags and call
times, from any prior system state): nothing renders while paused and the
dispatches extend the shared Pause Queue in submission order across
instances.  For every system state, `resumeLogs` returns with the pause
flag cleared, the queue empty, and the fully drained per-instance states
installed; and for every decomposition of the queue around an item, its
output is the outputs of the earlier items, then exactly one `_logFn`
invocation of that item at the state reached after its FIFO predecessors,
then the outputs of the later items — so each queued dispatch is invoked
exactly once, synchronously, in original FIFO order. -/
theorem resume_drains_fifo (optsOf : Nat → ConsolaOptions) (now : Nat) :
    (∀ (calls : List (Nat × InputLogObject × List JVal × Bool × Nat))
       (s0 : SysState), s0.paused = true →
       (runCalls optsOf calls s0).2 = [] ∧
       (runCalls optsOf calls s0).1.paused = true ∧
       (runCalls optsOf calls s0).1.queue
         = s0.queue ++ calls.map (fun c => ⟨c.1, c.2.1, c.2.2.1, c.2.2.2.1⟩)) ∧
    (∀ s : SysState,
       (resumeLogs optsOf now s).1.paused = false ∧
       (resumeLogs optsOf now s).1.queue = [] ∧
       (resumeLogs optsOf now s).1.lastLogs
         = (drainQueue optsOf now s.queue s.lastLogs).1) ∧
    (∀ (s : SysState) (q1 : List QueueItem) (item : QueueItem)
       (q2 : List QueueItem), s.queue = q1 ++ item :: q2 →
       (resumeLogs optsOf now s).2
         = (drainQueue optsOf now q1 s.lastLogs).2
           ++ ((logFn (optsOf item.inst)
                  ((drainQueue optsOf now q1 s.lastLogs).1 item.inst)
                  item.defaults item.args false now).2.map (fun o => (item.inst, o))
             ++ (drainQueue optsOf now q2
                  (Function.update (drainQueue optsOf now q1 s.lastLogs).1 item.inst
                    (logFn (optsOf item.inst)
                      ((drainQueue optsOf now q1 s.lastLogs).1 item.inst)
                      item.defaults item.args false now).1)).2)) := by
  refine ⟨?_, ?_, ?_⟩
  · intro calls s0 h
    have h' := runCalls_paused optsOf calls s0 h
    exact ⟨h'.1, h'.2.1, h'.2.2.2⟩
  · intro s
    exact ⟨rfl, rfl, rfl⟩
  · intro s q1 item q2 hq
    show (drainQueue optsOf now s.queue s.lastLogs).2 = _
    rw [hq, drainQueue_append]
    simp [drainQueue]

/-- Witness for C4: three dispatches (instances `0`, `1`, `0`) queued while
paused, then resumed at time 9 — nothing renders while paused, the queue
holds the items in submission order, resume clears flag and queue, and the
drain renders the three records in original FIFO order. -/
theorem resume_drains_fifo_witness :
    ((pauseLogs {}).paused = true ∧
     (⟨true, [⟨0, {}, [.prim (.pstr "a")], false⟩,
              ⟨1, {}, [.prim (.pstr "b")], false⟩,
              ⟨0, {}, [.prim (.pstr "c")], false⟩],
       fun _ => {}⟩ : SysState).queue
       = [⟨0, {}, [.prim (.pstr "a")], false⟩]
         ++ (⟨1, {}, [.prim (.pstr "b")], false⟩ : QueueItem)
           :: [⟨0, {}, [.prim (.pstr "c")], false⟩]) ∧
    (runCalls (fun _ => defaultOptions)
       [(0, {}, [.prim (.pstr "a")], false, 1),
        (1, {}, [.prim (.pstr "b")], false, 2),
        (0, {}, [.prim (.pstr "c")], false, 3)] (pauseLogs {})).2 = [] ∧
    (runCalls (fun _ => defaultOptions)
       [(0, {}, [.prim (.pstr "a")], false, 1),
        (1, {}, [.prim (.pstr "b")], false, 2),
        (0, {}, [.prim (.pstr "c")], false, 3)] (pauseLogs {})).1.queue
      = [⟨0, {}, [.prim (.pstr "a")], false⟩,
         ⟨1, {}, [.prim (.pstr "b")], false⟩,
         ⟨0, {}, [.prim (.pstr "c")], false⟩] ∧
    (resumeLogs (fun _ => defaultOptions) 9
      ⟨true, [⟨0, {}, [.prim (.pstr "a")], false⟩,
              ⟨1, {}, [.prim (.pstr "b")], false⟩,
              ⟨0, {}, [.prim (.pstr "c")], false⟩],
       fun _ => {}⟩).1.paused = false ∧
    (resumeLogs (fun _ => defaultOptions) 9
      ⟨true, [⟨0, {}, [.prim (.pstr "a")], false⟩,
              ⟨1, {}, [.prim (.pstr "b")], false⟩,
              ⟨0, {}, [.prim (.pstr "c")], false⟩],
       fun _ => {}⟩).1.queue = [] ∧
    (resumeLogs (fun _ => defaultOptions) 9
      ⟨true, [⟨0, {}, [.prim (.pstr "a")], false⟩,
              ⟨1, {}, [.prim (.pstr "b")], false⟩,
              ⟨0, {}, [.prim (.pstr "c")], false⟩],
       fun _ => {}⟩).2
      = [(0, ⟨9, .fin 3, "log", "", [.prim (.pstr "a")]⟩),
         (1, ⟨9, .fin 3, "log", "", [.prim (.pstr "b")]⟩),
         (0, ⟨9, .fin 3, "log", "", [.prim (.pstr "c")]⟩)] :=
  ⟨⟨by decide, by decide⟩,
   ((resume_drains_fifo (fun _ => defaultOptions) 9).1
     [(0, {}, [.prim (.pstr "a")], false, 1),
      (1, {}, [.prim (.pstr "b")], false, 2),
      (0, {}, [.prim (.pstr "c")], false, 3)] (pauseLogs {}) (by decide)).1,
   Eq.trans
     (((resume_drains_fifo (fun _ => defaultOptions) 9).1
       [(0, {}, [.prim (.pstr "a")], false, 1),
        (1, {}, [.prim (.pstr "b")], false, 2),
        (0, {}, [.prim (.pstr "c")], false, 3)] (pauseLogs {}) (by decide)).2.2)
     (by decide),
   ((resume_drains_fifo (fun _ => defaultOptions) 9).2.1
     ⟨true, [⟨0, {}, [.prim (.pstr "a")], false⟩,
             ⟨1, {}, [.prim (.pstr "b")], false⟩,
             ⟨0, {}, [.prim (.pstr "c")], false⟩], fun _ => {}⟩).1,
   ((resume_drains_fifo (fun _ => defaultOptions) 9).2.1
     ⟨true, [⟨0, {}, [.prim (.pstr "a")], false⟩,
             ⟨1, {}, [.prim (.pstr "b")], false⟩,
             ⟨0, {}, [.prim (.pstr "c")], false⟩], fun _ => {}⟩).2.1,
   Eq.trans
     ((resume_drains_fifo (fun _ => defaultOptions) 9).2.2
       ⟨true, [⟨0, {}, [.prim (.pstr "a")], false⟩,
               ⟨1, {}, [.prim (.pstr "b")], false⟩,
               ⟨0, {}, [.prim (.pstr "c")], false⟩], fun _ => {}⟩
       [⟨0, {}, [.prim (.pstr "a")], false⟩]
       ⟨1, {}, [.prim (.pstr "b")], false⟩
       [⟨0, {}, [.prim (.pstr "c")], false⟩] (by decide))
     (by decide)⟩

/-- C10.  Tree rendering at the depth limit: whenever the remaining
`maxDepth` for a sibling list is defined and `≤ 0`, the whole (nonempty)
list renders as exactly one ellipsis line — siblings after the first are
never enumerated, whatever their number — and that line is coloured with
the first item's colour exactly when the first item is an object carrying
one. -/
theorem buildTree_depth_limit (col : String → String → String) (o : TreeOpts)
    (item : TreeItem) (rest : List TreeItem) (dep : Int)
    (hd : o.maxDepth = some dep) (hle : dep ≤ 0) :
    _buildTree col o (item :: rest)
      = [match item with
         | .str _ => o.indent ++ o.ellipsis ++ "\n"
         | .obj _ (some c) _ => col c (o.indent ++ o.ellipsis ++ "\n")
         | .obj _ none _ => o.indent ++ o.ellipsis ++ "\n"] ∧
    (_buildTree col o (item :: rest)).length = 1 := by
  have hlim : o.maxDepth.any (fun d => d ≤ 0) = true := by
    rw [hd]; simpa using hle
  have : _buildTree col o (item :: rest)
      = [match item with
         | .str _ => o.indent ++ o.ellipsis ++ "\n"
         | .obj _ (some c) _ => col c (o.indent ++ o.ellipsis ++ "\n")
         | .obj _ none _ => o.indent ++ o.ellipsis ++ "\n"] := by
    rw [_buildTree]
    rw [if_pos hlim]
    cases item with
    | str s => rfl
    | obj text color children => cases color <;> rfl
  exact ⟨this, by rw [this]; rfl⟩

/-- Witness for C10: a three-item list (coloured object first) at
`maxDepth = 0` renders as the single ellipsis line, coloured with the first
item's colour; the colour function is made observable by prefixing the
colour name. -/
theorem buildTree_depth_limit_witness :
    (({ maxDepth := some 0 } : TreeOpts).maxDepth = some 0 ∧ (0 : Int) ≤ 0) ∧
    _buildTree (fun c s => c ++ "|" ++ s) { maxDepth := some 0 }
        [.obj "a" (some "red") (some [.str "x"]), .str "b", .str "c"]
      = ["red|" ++ ("  " ++ "..." ++ "\n")] ∧
    (_buildTree (fun c s => c ++ "|" ++ s) { maxDepth := some 0 }
        [.obj "a" (some "red") (some [.str "x"]), .str "b", .str "c"]).length = 1 := by
  refine ⟨⟨rfl, le_refl 0⟩, ?_⟩
  have h := buildTree_depth_limit (fun c s => c ++ "|" ++ s) { maxDepth := some 0 }
    (.obj "a" (some "red") (some [.str "x"])) [.str "b", .str "c"] 0 rfl (le_refl 0)
  refine ⟨?_, h.2⟩
  rw [h.1]
  rfl

/-- Number of leading space characters of a rendered line. -/
def countLeadingSpaces (s : String) : Nat :=
  (s.data.takeWhile (fun c => c = ' ')).length

/-- Repeating the empty string yields the empty string (which is why the
source's `"".repeat(margin)` produces a single blank line for every
positive margin). -/
theorem sRepeat_empty (n : Nat) : sRepeat "" n = "" := by
  induction n with
  | zero => rfl
  | succ k ih => rw [sRepeat, ih]; rfl

/-- Character data of a repeated one-character string. -/
theorem data_sRepeat_space (k : Nat) : (sRepeat " " k).data = List.replicate k ' ' := by
  induction k with
  | zero => rfl
  | succ k ih =>
    rw [sRepeat, String.data_append, ih, List.replicate_succ]
    rfl

/-- Character data of the computed left margin. -/
theorem leftSpace_data (ml : Nat) :
    ((if ml > 0 then sRepeat " " ml else "") : String).data = List.replicate ml ' ' := by
  cases ml with
  | zero => rfl
  | succ k => rw [if_pos (Nat.succ_pos k), data_sRepeat_space]

/-- A line made of a left margin followed by a non-space character is
nonempty and starts with exactly the margin's spaces. -/
theorem margin_line_shape (ml : Nat) (c : Char) (hc : c ≠ ' ') (r : List Char) :
    (String.mk (List.replicate ml ' ' ++ c :: r)) ≠ "" ∧
    countLeadingSpaces (String.mk (List.replicate ml ' ' ++ c :: r)) = ml := by
  constructor
  · intro h
    have hdata : (List.replicate ml ' ' ++ c :: r) = [] := congrArg String.data h
    simp at hdata
  · unfold countLeadingSpaces
    show ((List.replicate ml ' ' ++ c :: r).takeWhile (fun c => c = ' ')).length = ml
    induction ml with
    | zero =>
      simp [List.takeWhile_cons, hc]
    | succ k ih =>
      rw [List.replicate_succ, List.cons_append, List.takeWhile_cons]
      simp only [decide_True, List.length_cons, if_pos]
      simpa using ih

/-- C7 (counterexample).  With `marginTop = 2` the claim predicts exactly
two blank lines before the top border; the source pushes
`"".repeat(marginTop)`, a single empty string, so the rendering starts
with exactly one blank line. -/
theorem box_margin_counterexample :
    (boxLines id "hi" { style := { marginTop := 2, marginBottom := 2 } }).takeWhile
        (fun l => l == "") = [""] ∧
    ([""] : List String) ≠ ["", ""] := by
  constructor
  · decide
  · decide

/-- Packaging step for the amended margin theorem: a rendering of the form
one blank line, a top border, content rows, a bottom border, one blank line
is exactly `"" :: mid ++ [""]` with all of `mid` satisfying the line
property. -/
theorem box_mid_intro (P : String → Prop) (tb bb : String) (content : List String)
    (h : P tb ∧ (∀ l ∈ content, P l) ∧ P bb) :
    ∃ mid, ([""] : List String) ++ [tb] ++ content ++ [bb] ++ [""]
      = "" :: mid ++ [""] ∧ ∀ l ∈ mid, P l := by
  refine ⟨[tb] ++ content ++ [bb], by simp, ?_⟩
  intro l hl
  rcases List.mem_append.1 hl with hl1 | hl2
  · rcases List.mem_append.1 hl1 with h0 | h1
    · rw [List.mem_singleton.1 h0]; exact h.1
    · exact h.2.1 l h1
  · rw [List.mem_singleton.1 hl2]; exact h.2.2

/-- C7 (amended).  For every text, padding, alignment and margins
`marginTop = m > 0`, `marginBottom = n > 0` under the default (rounded)
border with colours disabled: the rendering consists of exactly one blank
line, then the box lines, then exactly one blank line — one blank line per
positive margin, regardless of the margin's value — and every non-margin
line (borders and content rows) begins with exactly `marginLeft` literal
spaces followed by a border glyph. -/
theorem box_margins_amended (text : String) (pad ml m n : Nat) (va : Valign)
    (hm : 0 < m) (hn : 0 < n) :
    ∃ mid,
      boxLines id text
        { style := { valign := va, padding := pad, marginLeft := ml,
                     marginTop := m, marginBottom := n } }
        = "" :: mid ++ [""] ∧
      ∀ l ∈ mid, l ≠ "" ∧ countLeadingSpaces l = ml := by
  have hbs : resolveBorderStyle (Sum.inl "rounded") = ⟨"╭", "╮", "╰", "╯", "─", "│"⟩ := by
    decide
  have hshape : ∀ (s : String) (c : Char) (r : List Char), c ≠ ' ' →
      s.data = List.replicate ml ' ' ++ c :: r →
      s ≠ "" ∧ countLeadingSpaces s = ml := by
    intro s c r hc hr
    have hms := margin_line_shape ml c hc r
    have hEq : s = String.mk (List.replicate ml ' ' ++ c :: r) := by
      apply String.ext; exact hr
    rw [hEq]
    exact hms
  have shape4 : ∀ (g x y : String) (c : Char), c ≠ ' ' → g.data = [c] →
      ((if ml > 0 then sRepeat " " ml else "") ++ g ++ x ++ y ≠ "" ∧
       countLeadingSpaces ((if ml > 0 then sRepeat " " ml else "") ++ g ++ x ++ y) = ml) := by
    intro g x y c hc hg
    refine hshape _ c (x.data ++ y.data) hc ?_
    simp [String.data_append, leftSpace_data, hg]
  have shape6 : ∀ (g x y z w : String) (c : Char), c ≠ ' ' → g.data = [c] →
      ((if ml > 0 then sRepeat " " ml else "") ++ g ++ x ++ y ++ z ++ w ≠ "" ∧
       countLeadingSpaces
         ((if ml > 0 then sRepeat " " ml else "") ++ g ++ x ++ y ++ z ++ w) = ml) := by
    intro g x y z w c hc hg
    refine hshape _ c (x.data ++ y.data ++ z.data ++ w.data) hc ?_
    simp [String.data_append, leftSpace_data, hg]
  simp only [boxLines, hbs, id]
  rw [if_pos hm, if_pos hn]
  simp only [sRepeat_empty]
  apply box_mid_intro
  refine ⟨?_, ?_, ?_⟩
  · exact shape4 _ _ _ '╭' (by decide) rfl
  · intro l hl
    rcases List.mem_map.1 hl with ⟨i, _, rfl⟩
    have hite : ∀ (b : Bool) (x y : String),
        (x ≠ "" ∧ countLeadingSpaces x = ml) →
        (y ≠ "" ∧ countLeadingSpaces y = ml) →
        ((if b = true then x else y) ≠ "" ∧
         countLeadingSpaces (if b = true then x else y) = ml) := by
      intro b x y hx hy
      cases b
      · simpa using hy
      · simpa using hx
    exact hite _ _ _ (shape4 _ _ _ '│' (by decide) rfl)
      (shape6 _ _ _ _ _ '│' (by decide) rfl)
  · exact shape4 _ _ _ '╰' (by decide) rfl

/-- Witness for C7 (amended): concrete margins 3 and 2 with left margin 4
produce one leading and one trailing blank line around lines indented by
exactly four spaces. -/
theorem box_margins_amended_witness :
    (0 < 3 ∧ 0 < 2) ∧
    ∃ mid,
      boxLines id "hey"
        { style := { valign := .center, padding := 2, marginLeft := 4,
                     marginTop := 3, marginBottom := 2 } }
        = "" :: mid ++ [""] ∧
      ∀ l ∈ mid, l ≠ "" ∧ countLeadingSpaces l = 4 :=
  ⟨⟨by decide, by decide⟩,
   box_margins_amended "hey" 2 4 3 2 .center (by decide) (by decide)⟩

end NoteConsola
